import Mathlib

/-
Verification development for the `rust-cpp` lint pass (`src/lint.rs`).

The pass visits call expressions, records C++ type information for the
registered `cpp!` blocks (`record_type_data`), and, once every registered
block has a return type, renders and compiles one C++ source document
(`finalize`).  The companion modules `types.rs` (type translation) and
`data.rs` (the `CppFn` declaration printer) are not part of the sources at
hand; the few facts needed about them are modelled from the specification
and are marked as such in their doc comments.
-/

namespace RustCpp

/-- Host expressions, reduced to the shape information `record_type_data`
inspects: `ExprCast` (the ascribed type is never used), `ExprAddrOf`
(mutability never used), and any other expression form, tagged by a
numeric id so that a type environment can distinguish expressions. -/
inductive Expr where
  | cast : Expr → Expr
  | addrOf : Expr → Expr
  | lit : Nat → Expr
deriving DecidableEq

/-- The resolved host type of an expression, as far as the claims need it:
either it has a known C++ mapping (carrying the mapped C++ name) or no
known mapping exists. -/
inductive HostTy where
  | mapped : String → HostTy
  | unmappable : HostTy
deriving DecidableEq

/-- Modelled from the spec: the result of `types::cpp_type_of` (module
`types.rs` is not among the sources).  It carries the foreign name when
the type is mappable (`foreign = some n`), `none` when unmappable, and
the `recoverable` mark set by `recover()`. -/
structure TypeName where
  foreign : Option String
  recoverable : Bool
deriving DecidableEq

/-- Modelled from the spec: `types::cpp_type_of(types, tcx, e, is_ref)`
translates the resolved type of `e`; a by-reference capture is
represented as a pointer to the mapped type, an unmappable type yields
no foreign name.  The freshly built result is not yet recoverable. -/
def cpp_type_of (tyOf : Expr → HostTy) (e : Expr) (is_ref : Bool) : TypeName :=
  match tyOf e with
  | HostTy.mapped n => { foreign := some (if is_ref then "const " ++ n ++ "*" else n), recoverable := false }
  | HostTy.unmappable => { foreign := none, recoverable := false }

/-- Modelled from the spec: `TypeName::recover` marks a translation as
recoverable, so that an unmappable type is reported as a soft note
rather than a fatal error. -/
def recover (tn : TypeName) : TypeName :=
  { tn with recoverable := true }

/-- Modelled from the spec: the C++ name produced by `into_name` — the
mapped name when one exists, the opaque placeholder struct otherwise. -/
def into_name_str (tn : TypeName) : String :=
  tn.foreign.getD "rs::__Dummy"

/-- Modelled from the spec: the session error count after `into_name` —
an unmappable, non-recoverable translation records one fatal
diagnostic; a recoverable one only records a soft note. -/
def into_name_errs (tn : TypeName) (errs : Nat) : Nat :=
  if tn.foreign.isNone && !tn.recoverable then errs + 1 else errs

/-- Modelled from the spec: `into_name` yields the C++ name and updates
the session's fatal-diagnostic count. -/
def into_name (tn : TypeName) (errs : Nat) : String × Nat :=
  (into_name_str tn, into_name_errs tn errs)

/-- One captured-argument descriptor of a `CppFn`: the original
identifier and the (initially unset) recorded C++ type name. -/
structure Arg where
  ident : String
  ty : Option String
deriving DecidableEq

/-- One registered `cpp!` block (`data::CppFn`): its unique generated
name, the recorded return type (initially `none`), and the ordered
captured-argument descriptors (`arg_idents`). -/
structure CppFn where
  name : String
  ret_ty : Option String
  arg_idents : List Arg
deriving DecidableEq

/-- `CPP_FNDECLS.get_mut(name)`: look a block up by name in the registry
(the registry is a `HashMap<String, CppFn>`, modelled as an association
list). -/
def find_decl : List (String × CppFn) → String → Option CppFn
  | [], _ => none
  | p :: rest, n => if p.1 = n then some p.2 else find_decl rest n

/-- Writing back through the `get_mut` borrow: replace the entry keyed
`name` by the updated block. -/
def update_decl (reg : List (String × CppFn)) (name : String) (f : CppFn) : List (String × CppFn) :=
  reg.map (fun p => if p.1 = name then (p.1, f) else p)

/-- `cppfn.arg_idents[i].ty = Some n`: set the recorded type of the
`i`-th argument descriptor. -/
def set_ty_at : List Arg → Nat → String → List Arg
  | [], _, _ => []
  | a :: rest, 0, n => { a with ty := some n } :: rest
  | a :: rest, i + 1, n => a :: set_ty_at rest i n

/-- Result of the argument loop of `record_type_data`: normal
completion, the `panic!` on a malformed argument shape, or the
out-of-bounds index panic when the call has more arguments than the
block has descriptors.  The `CppFn` carries the writes already
performed through the `get_mut` borrow when the loop stopped. -/
inductive ArgsResult where
  | ok : CppFn → Nat → ArgsResult
  | shape_mismatch : CppFn → Nat → Nat → ArgsResult
  | index_oob : CppFn → Nat → Nat → ArgsResult
deriving DecidableEq

/-- The `for (i, arg) in args.iter().enumerate()` loop of
`record_type_data` (src/lint.rs:80-99): each argument must be an
address-of expression wrapped in two casts; the inner expression is
translated by-reference, marked recoverable, and stored on descriptor
`i`; any other shape panics. -/
def process_args (tyOf : Expr → HostTy) : CppFn → Nat → List Expr → Nat → ArgsResult
  | f, errs, [], _ => ArgsResult.ok f errs
  | f, errs, a :: rest, i =>
    match a with
    | Expr.cast (Expr.cast (Expr.addrOf e)) =>
      if i < f.arg_idents.length then
        process_args tyOf
          { f with arg_idents :=
              set_ty_at f.arg_idents i (into_name_str (recover (cpp_type_of tyOf e true))) }
          (into_name_errs (recover (cpp_type_of tyOf e true)) errs) rest (i + 1)
      else ArgsResult.index_oob f errs i
    | _ => ArgsResult.shape_mismatch f errs i

/-- `decls.values().all(|x| x.ret_ty.is_some())` — the completion
predicate gating finalization (src/lint.rs:106). -/
def all_ret_set (reg : List (String × CppFn)) : Bool :=
  reg.all (fun p => p.2.ret_ty.isSome)

/-- Every registered block other than `name` already has a return type. -/
def all_ret_set_except (reg : List (String × CppFn)) (name : String) : Bool :=
  reg.all (fun p => p.1 = name || p.2.ret_ty.isSome)

/-- How one `record_type_data` call ends: the silent `return` on an
unregistered name, a normal return without finalizing, one of the two
argument-loop panics, the `abort_if_errors` abort, or a run of
`finalize`. -/
inductive Outcome where
  | skipped : Outcome
  | ok : Outcome
  | panicked : Nat → Outcome
  | index_panicked : Nat → Outcome
  | aborted : Outcome
  | finalized : Outcome
deriving DecidableEq

/-- `record_type_data` (src/lint.rs:69-110).  State threading: `reg` is
the `CPP_FNDECLS` registry, `errs` the session's fatal-diagnostic
count, `tyOf` the host compiler's resolved-type query.  The return
type of the whole call expression is translated (not recoverable) and
written first; then each argument is unwrapped and recorded by the
argument loop; if afterwards every registered block has a return type,
`abort_if_errors` aborts when fatal diagnostics accumulated, otherwise
`finalize` runs.  Mutations through the `get_mut` borrow are modelled
by writing the updated block back into the registry at every exit,
including the panicking ones. -/
def record_type_data (tyOf : Expr → HostTy) (reg : List (String × CppFn)) (errs : Nat)
    (name : String) (call : Expr) (args : List Expr) :
    Outcome × List (String × CppFn) × Nat :=
  match find_decl reg name with
  | none => (Outcome.skipped, reg, errs)
  | some f =>
    match process_args tyOf
        { f with ret_ty := some (into_name_str (cpp_type_of tyOf call false)) }
        (into_name_errs (cpp_type_of tyOf call false) errs) args 0 with
    | ArgsResult.ok f2 errs2 =>
      let reg2 := update_decl reg name f2
      if all_ret_set reg2 then
        if errs2 = 0 then (Outcome.finalized, reg2, errs2)
        else (Outcome.aborted, reg2, errs2)
      else (Outcome.ok, reg2, errs2)
    | ArgsResult.shape_mismatch f2 errs2 i => (Outcome.panicked i, update_decl reg name f2, errs2)
    | ArgsResult.index_oob f2 errs2 i => (Outcome.index_panicked i, update_decl reg name f2, errs2)

/-- Drive `record_type_data` over a sequence of visited call sites (the
host's expression visitor), counting how many visits ran `finalize`.
A panic or an abort terminates the compilation; every other outcome
lets visitation continue. -/
def run_visits (tyOf : Expr → HostTy) :
    List (String × Expr × List Expr) → List (String × CppFn) → Nat → Nat →
    List (String × CppFn) × Nat × Nat
  | [], reg, errs, count => (reg, errs, count)
  | (n, c, as) :: rest, reg, errs, count =>
    match record_type_data tyOf reg errs n c as with
    | (Outcome.finalized, reg2, errs2) => run_visits tyOf rest reg2 errs2 (count + 1)
    | (Outcome.aborted, reg2, errs2) => (reg2, errs2, count)
    | (Outcome.panicked _, reg2, errs2) => (reg2, errs2, count)
    | (Outcome.index_panicked _, reg2, errs2) => (reg2, errs2, count)
    | (_, reg2, errs2) => run_visits tyOf rest reg2 errs2 count

/-- The recorded type of argument `j` of block `name`, read back from
the registry (`none` when the block or the descriptor is missing). -/
def stored_arg_ty (reg : List (String × CppFn)) (name : String) (j : Nat) : Option (Option String) :=
  match find_decl reg name with
  | none => none
  | some f => (f.arg_idents[j]?).map Arg.ty

/-- The recorded return type of block `name`, read back from the
registry. -/
def stored_ret_ty (reg : List (String × CppFn)) (name : String) : Option (Option String) :=
  (find_decl reg name).map CppFn.ret_ty

/-- Does an argument expression have the double-cast-wrapped address-of
shape the front end always emits? -/
def is_shape : Expr → Bool
  | Expr.cast (Expr.cast (Expr.addrOf _)) => true
  | _ => false

/-- Every argument has the expected wrapper shape. -/
def good_args (args : List Expr) : Bool :=
  args.all is_shape

/-- The second phase of the loop in `super_hack_get_out_dir`
(src/lint.rs:24-33), entered once `--out-dir` has been seen: a later
occurrence of the token itself only re-arms the flag and is skipped
(`continue`), so the first non-token element is taken. -/
def super_hack_take : List String → Option String
  | [] => none
  | a :: rest => if a = "--out-dir" then super_hack_take rest else some a

/-- The first phase of the loop in `super_hack_get_out_dir`: scan for
the first occurrence of `--out-dir`. -/
def super_hack_scan : List String → Option String
  | [] => none
  | a :: rest => if a = "--out-dir" then super_hack_take rest else super_hack_scan rest

/-- `super_hack_get_out_dir` (src/lint.rs:21-36).  `argv` is
`env::args()`; `cwd` is `env::current_dir()` (`none` when it fails, in
which case the `.unwrap()` panics and the build aborts — result
`none`). -/
def super_hack_get_out_dir (argv : List String) (cwd : Option String) : Option String :=
  match super_hack_scan argv with
  | some d => some d
  | none => cwd

/-- Following the claim's words only, for comparison with
`super_hack_get_out_dir`: the argument immediately following the first
occurrence of the token `--out-dir`. -/
def immediately_after_token : List String → Option String
  | [] => none
  | [_] => none
  | a :: b :: rest => if a = "--out-dir" then some b else immediately_after_token (b :: rest)

/-- Following the claim's words only: take the argument immediately
following `--out-dir`, falling back to the current working directory. -/
def spec_out_dir_resolve (argv : List String) (cwd : Option String) : Option String :=
  match immediately_after_token argv with
  | some d => some d
  | none => cwd

/-- The generated C++ document up to the `usize` typedef
(src/lint.rs:120-156). -/
def doc_part1 : String := "\n/******************************\n * Code Generated by Rust-C++ *\n ******************************/\n\n/* cstdint includes sane type definitions for integer types */\n#include <cstdint>\n\n/* the rs:: namespace contains rust-defined types */\nnamespace rs \x7b\n    /* A slice from rust code */\n    /* Can be used to interact with, pass around, and return Rust slices */\n    template<class T>\n    struct Slice \x7b\n        const T*  data;\n        uintptr_t len;\n    \x7d;\n\n    /* A string slice is simply a slice of utf-8 encoded characters */\n    typedef Slice<uint8_t> StrSlice;\n\n    /* A trait object is composed of a data pointer and a vtable */\n    struct TraitObject \x7b\n        void* data;\n        void* vtable;\n    \x7d;\n\n    /* A dummy struct which is generated when incompatible types are closed-over */\n    struct __Dummy;\n\n\n    /* Typedefs for integral and floating point types */\n    typedef uint8_t u8;\n    typedef uint16_t u16;\n    typedef uint32_t u32;\n    typedef uint64_t u64;\n    typedef "

/-- Between the `usize` and `isize` typedefs (src/lint.rs:156-162). -/
def doc_part2 : String := " usize;\n\n    typedef int8_t i8;\n    typedef int16_t i16;\n    typedef int32_t i32;\n    typedef int64_t i64;\n    typedef "

/-- From the `isize` typedef to the 32-bit float assertion
(src/lint.rs:162-165). -/
def doc_part3a : String := " isize;\n\n    typedef float f32;\n    "

/-- The IEEE-754 32-bit float static assertion (src/lint.rs:165). -/
def float_assert_32 : String := "static_assert(sizeof(f32) == 4, \"C++ \x60float\x60 isn\x27t 32 bits wide\");"

/-- Between the two float assertions (src/lint.rs:165-168). -/
def doc_part3b : String := "\n\n    typedef double f64;\n    "

/-- The IEEE-754 64-bit float static assertion (src/lint.rs:168). -/
def float_assert_64 : String := "static_assert(sizeof(f64) == 8, \"C++ \x60double\x60 isn\x27t 64 bits wide\");"

/-- End of the preamble, up to the user-header insertion point
(src/lint.rs:168-175). -/
def doc_part3c : String := "\n\n    /* We use this bool type to ensure that our bools are 1 byte wide */\n    typedef i8 bool_;\n\x7d\n\n/* User-generated Headers */\n"

/-- Between the user headers and the generated-types section
(src/lint.rs:175-180). -/
def doc_part4 : String := "\n\n/* Generated types */\nnamespace rs \x7b\n\n"

/-- Between the generated types and the function declarations
(src/lint.rs:180-185). -/
def doc_part5 : String := "\n\n\x7d // namespace rs\n\n/* User-generated function declarations */\nextern \"C\" \x7b"

/-- The closing brace of the `extern \"C\"` block and the final newline
(src/lint.rs:185-186). -/
def doc_part6 : String := "\x7d\n"

/-- The `format!` template of `finalize` (src/lint.rs:120-191): the
fixed preamble with the two target-supplied pointer-width typedefs,
the verbatim user headers, the registry type section, and the function
declarations inside one `extern \"C\"` block. -/
def finalize_doc (uint_type int_type headers types_cpp fndecls : String) : String :=
  doc_part1 ++ uint_type ++ doc_part2 ++ int_type ++ doc_part3a ++ float_assert_32 ++
    doc_part3b ++ float_assert_64 ++ doc_part3c ++ headers ++ doc_part4 ++ types_cpp ++
    doc_part5 ++ fndecls ++ doc_part6

/-- Modelled from the spec: `CppFn::to_string` (module `data.rs` is not
among the sources) renders one extern-linkage declaration listing the
return type and each argument's foreign type and original identifier,
in original capture order. -/
def CppFn.to_string (f : CppFn) : String :=
  f.ret_ty.getD "" ++ " " ++ f.name ++ "(" ++
    String.intercalate ", " (f.arg_idents.map (fun a => a.ty.getD "" ++ " " ++ a.ident)) ++ ");"

/-- `decls.values().fold(String::new(), ...)` (src/lint.rs:116-118):
concatenate the block declarations in the registry's iteration order. -/
def cpp_fn_decls (l : List CppFn) : String :=
  l.foldl (fun acc f => acc ++ "\n" ++ f.to_string ++ "\n") ""

/-- The two target-dependent preamble inputs,
`cx.sess().target.uint_type` and `cx.sess().target.int_type`
(src/lint.rs:187-188), rendered as strings. -/
structure Target where
  uint_type : String
  int_type : String
deriving DecidableEq

/-- A target triple with 32-bit pointers: `uint_type`/`int_type` render
as `u32`/`i32`. -/
def target32 : Target := { uint_type := "u32", int_type := "i32" }

/-- A target triple with 64-bit pointers: `uint_type`/`int_type` render
as `u64`/`i64`. -/
def target64 : Target := { uint_type := "u64", int_type := "i64" }

/-- The full document `finalize` writes, as a function of the target,
the accumulated header text, the rendered type registry, and the
block registry's iteration order. -/
def finalize_doc_of (t : Target) (headers types_cpp : String) (decl_values : List CppFn) : String :=
  finalize_doc t.uint_type t.int_type headers types_cpp (cpp_fn_decls decl_values)

/-- Observable events of one lint callback: lock acquisition/release on
the four shared tables, the document write, the search-path mutation,
environment writes, the external compile invocation, and the
`abort_if_errors` abort. -/
inductive Event where
  | lock : String → Event
  | unlock : String → Event
  | write_file : String → Event
  | add_search_path : String → Event
  | set_env : String → Event
  | run_compiler : Event
  | abort_compilation : Event
deriving DecidableEq

/-- The event sequence of `finalize` (src/lint.rs:112-250): write the
document to `<out_dir>/rust_cpp_tmp.cpp`, mutate the search paths, set
the environment for the `gcc` crate, lock `CPP_FLAGS`, run the
external compiler while that guard is held, and release it when
`finalize` returns. -/
def finalize_events (out_dir : String) : List Event :=
  [Event.write_file (out_dir ++ "/rust_cpp_tmp.cpp"), Event.add_search_path out_dir,
   Event.set_env "TARGET", Event.set_env "HOST", Event.set_env "OPT_LEVEL",
   Event.set_env "CARGO_MANIFEST_DIR", Event.set_env "OUT_DIR", Event.set_env "PROFILE",
   Event.set_env "CXXFLAGS",
   Event.lock "CPP_FLAGS", Event.run_compiler, Event.unlock "CPP_FLAGS"]

/-- The guards taken at the top of `record_type_data` drop in reverse
order when the function returns or unwinds. -/
def record_unlocks : List Event :=
  [Event.unlock "CPP_TYPEDATA", Event.unlock "CPP_FNDECLS", Event.unlock "CPP_HEADERS"]

/-- Events after the three locks are taken, by outcome: a normal or
skipped return just drops the guards; a panic and the
`abort_if_errors` abort unwind, dropping the guards; a finalizing call
runs all of `finalize` before `record_type_data` returns and drops the
guards. -/
def record_trace_of (o : Outcome) (out_dir : String) : List Event :=
  match o with
  | Outcome.skipped => record_unlocks
  | Outcome.ok => record_unlocks
  | Outcome.panicked _ => record_unlocks
  | Outcome.index_panicked _ => record_unlocks
  | Outcome.aborted => Event.abort_compilation :: record_unlocks
  | Outcome.finalized => finalize_events out_dir ++ record_unlocks

/-- The full event trace of one `record_type_data` call
(src/lint.rs:70-72 then 74-110): the three table guards are acquired
first and held for the whole body, including any run of `finalize`. -/
def record_trace (tyOf : Expr → HostTy) (reg : List (String × CppFn)) (errs : Nat)
    (name : String) (call : Expr) (args : List Expr) (out_dir : String) : List Event :=
  [Event.lock "CPP_HEADERS", Event.lock "CPP_FNDECLS", Event.lock "CPP_TYPEDATA"] ++
    record_trace_of (record_type_data tyOf reg errs name call args).1 out_dir

/-- Is an event file I/O or an external-process invocation? -/
def io_event : Event → Bool
  | Event.write_file _ => true
  | Event.run_compiler => true
  | _ => false

/-- Pair every I/O event of a trace with the list of locks held when it
happens (in acquisition order). -/
def io_held_pairs : List Event → List String → List (Event × List String)
  | [], _ => []
  | Event.lock l :: rest, held => io_held_pairs rest (held ++ [l])
  | Event.unlock l :: rest, held => io_held_pairs rest (held.filter (fun x => x ≠ l))
  | e :: rest, held =>
    if io_event e then (e, held) :: io_held_pairs rest held else io_held_pairs rest held

/-- Does some I/O event of the trace happen while at least one lock is
held? -/
def io_while_locked (tr : List Event) : Bool :=
  (io_held_pairs tr []).any (fun p => !p.2.isEmpty)

/-- Does the trace write any file? -/
def has_write_file (tr : List Event) : Bool :=
  tr.any (fun e => match e with | Event.write_file _ => true | _ => false)

/-! ### Helper lemmas -/

lemma str_append_cancel {a b x y : String} (h : a ++ x ++ b = a ++ y ++ b) : x = y := by
  have hd : a.data ++ x.data ++ b.data = a.data ++ y.data ++ b.data := by
    have := congrArg String.data h
    simpa [String.data_append] using this
  have hx : x.data = y.data :=
    List.append_cancel_left (List.append_cancel_right hd)
  exact String.ext hx

lemma set_ty_at_length : ∀ (l : List Arg) (i : Nat) (n : String),
    (set_ty_at l i n).length = l.length := by
  intro l
  induction l with
  | nil => intro i n; rfl
  | cons a rest ih =>
    intro i n
    cases i with
    | zero => simp [set_ty_at]
    | succ i => simp [set_ty_at, ih]

lemma set_ty_at_get_ne : ∀ (l : List Arg) (i : Nat) (n : String) (j : Nat), j ≠ i →
    (set_ty_at l i n)[j]? = l[j]? := by
  intro l
  induction l with
  | nil => intro i n j _; rfl
  | cons a rest ih =>
    intro i n j hj
    cases i with
    | zero =>
      cases j with
      | zero => exact absurd rfl hj
      | succ j => simp [set_ty_at]
    | succ i =>
      cases j with
      | zero => simp [set_ty_at]
      | succ j =>
        have : j ≠ i := fun he => hj (by rw [he])
        simp [set_ty_at, ih i n j this]

lemma set_ty_at_get_eq : ∀ (l : List Arg) (i : Nat) (n : String), i < l.length →
    (set_ty_at l i n)[i]? = (l[i]?).map (fun a => { a with ty := some n }) := by
  intro l
  induction l with
  | nil => intro i n h; simp at h
  | cons a rest ih =>
    intro i n h
    cases i with
    | zero => simp [set_ty_at]
    | succ i =>
      have : i < rest.length := by simpa using h
      simp [set_ty_at, ih i n this]

lemma is_shape_iff (a : Expr) : is_shape a = true ↔
    ∃ e, a = Expr.cast (Expr.cast (Expr.addrOf e)) := by
  cases a with
  | lit n => simp [is_shape]
  | addrOf e => simp [is_shape]
  | cast e1 =>
    cases e1 with
    | lit n => simp [is_shape]
    | addrOf e => simp [is_shape]
    | cast e2 =>
      cases e2 with
      | lit n => simp [is_shape]
      | cast e3 => simp [is_shape]
      | addrOf e => simp [is_shape]

lemma into_name_errs_recover (tn : TypeName) (errs : Nat) :
    into_name_errs (recover tn) errs = errs := by
  simp [into_name_errs, recover]

lemma process_args_not_shape (tyOf : Expr → HostTy) (f : CppFn) (errs : Nat)
    (b : Expr) (rest : List Expr) (i : Nat) (hb : is_shape b = false) :
    process_args tyOf f errs (b :: rest) i = ArgsResult.shape_mismatch f errs i := by
  cases b with
  | lit n => rfl
  | addrOf e => rfl
  | cast e1 =>
    cases e1 with
    | lit n => rfl
    | addrOf e => rfl
    | cast e2 =>
      cases e2 with
      | lit n => rfl
      | cast e3 => rfl
      | addrOf e => simp [is_shape] at hb

lemma process_args_cons_shape (tyOf : Expr → HostTy) (f : CppFn) (errs : Nat)
    (e : Expr) (rest : List Expr) (i : Nat) :
    process_args tyOf f errs (Expr.cast (Expr.cast (Expr.addrOf e)) :: rest) i =
      if i < f.arg_idents.length then
        process_args tyOf
          { f with arg_idents :=
              set_ty_at f.arg_idents i (into_name_str (recover (cpp_type_of tyOf e true))) }
          (into_name_errs (recover (cpp_type_of tyOf e true)) errs) rest (i + 1)
      else ArgsResult.index_oob f errs i := rfl

/-- Master lemma for the argument loop on a fully well-shaped suffix:
it completes normally, never changes the error count (every argument
translation is recoverable), preserves the descriptors below `i`, and
stores on each descriptor `i ≤ j` the recoverable by-reference
translation of the unwrapped inner expression. -/
lemma process_args_good (tyOf : Expr → HostTy) : ∀ (args : List Expr) (f : CppFn) (errs i : Nat),
    good_args args = true → i + args.length ≤ f.arg_idents.length →
    ∃ f2, process_args tyOf f errs args i = ArgsResult.ok f2 errs ∧
      f2.name = f.name ∧ f2.ret_ty = f.ret_ty ∧
      f2.arg_idents.length = f.arg_idents.length ∧
      (∀ j, j < i → f2.arg_idents[j]? = f.arg_idents[j]?) ∧
      (∀ j, i ≤ j → j < i + args.length →
        ∃ e, args[j - i]? = some (Expr.cast (Expr.cast (Expr.addrOf e))) ∧
          (f2.arg_idents[j]?).map Arg.ty =
            some (some (into_name_str (recover (cpp_type_of tyOf e true))))) := by
  intro args
  induction args with
  | nil =>
    intro f errs i _ _
    refine ⟨f, rfl, rfl, rfl, rfl, fun j _ => rfl, fun j hij hj => ?_⟩
    refine absurd hj ?_
    simp
    omega
  | cons a rest ih =>
    intro f errs i hgood hlen
    have hshape : is_shape a = true ∧ good_args rest = true := by
      simpa [good_args] using hgood
    obtain ⟨e, rfl⟩ := (is_shape_iff a).mp hshape.1
    have hi : i < f.arg_idents.length := by
      simp [List.length_cons] at hlen; omega
    set nm := into_name_str (recover (cpp_type_of tyOf e true)) with hnm
    set f' : CppFn := { f with arg_idents := set_ty_at f.arg_idents i nm } with hf'
    have hlen' : f'.arg_idents.length = f.arg_idents.length := by
      simp [hf', set_ty_at_length]
    have hstep : process_args tyOf f errs (Expr.cast (Expr.cast (Expr.addrOf e)) :: rest) i =
        process_args tyOf f' errs rest (i + 1) := by
      rw [process_args_cons_shape, if_pos hi, into_name_errs_recover]
    have hlen2 : (i + 1) + rest.length ≤ f'.arg_idents.length := by
      rw [hlen']
      simp [List.length_cons] at hlen
      omega
    obtain ⟨f2, heq, hname, hret, hflen, hlow, hhigh⟩ := ih f' errs (i + 1) hshape.2 hlen2
    refine ⟨f2, by rw [hstep, heq], by simp [hname, hf'], by simp [hret, hf'],
      by rw [hflen, hlen'], ?_, ?_⟩
    · intro j hj
      rw [hlow j (by omega)]
      show (set_ty_at f.arg_idents i nm)[j]? = f.arg_idents[j]?
      exact set_ty_at_get_ne f.arg_idents i nm j (by omega)
    · intro j hij hj
      rcases Nat.eq_or_lt_of_le hij with hji | hji
      · refine ⟨e, by simp [← hji], ?_⟩
        have h1 : f2.arg_idents[j]? = f'.arg_idents[j]? := hlow j (by omega)
        have h2 : f'.arg_idents[j]? = (f.arg_idents[i]?).map (fun a => { a with ty := some nm }) := by
          show (set_ty_at f.arg_idents i nm)[j]? = _
          rw [← hji]
          exact set_ty_at_get_eq f.arg_idents i nm hi
        rw [h1, h2]
        have hgi := List.getElem?_eq_getElem hi
        rw [hgi]
        simp [hnm]
      · have hij' : i + 1 ≤ j := hji
        obtain ⟨e', he', hty⟩ := hhigh j hij' (by simp [List.length_cons] at hj ⊢; omega)
        refine ⟨e', ?_, hty⟩
        have hsub : j - i = (j - (i + 1)) + 1 := by omega
        rw [hsub]
        simpa using he'

/-- Master lemma for the argument loop hitting its first malformed
argument: the loop panics at exactly that index, the writes for the
earlier well-shaped arguments having already been performed. -/
lemma process_args_first_bad (tyOf : Expr → HostTy) : ∀ (pre : List Expr) (b : Expr)
    (rest : List Expr) (f : CppFn) (errs i : Nat),
    good_args pre = true → i + pre.length ≤ f.arg_idents.length → is_shape b = false →
    ∃ f2, process_args tyOf f errs (pre ++ b :: rest) i =
        ArgsResult.shape_mismatch f2 errs (i + pre.length) ∧
      f2.name = f.name ∧ f2.ret_ty = f.ret_ty ∧
      f2.arg_idents.length = f.arg_idents.length ∧
      (∀ j, j < i → f2.arg_idents[j]? = f.arg_idents[j]?) ∧
      (∀ j, i ≤ j → j < i + pre.length →
        ∃ s, (f2.arg_idents[j]?).map Arg.ty = some (some s)) := by
  intro pre
  induction pre with
  | nil =>
    intro b rest f errs i _ _ hb
    refine ⟨f, ?_, rfl, rfl, rfl, fun j _ => rfl, fun j hij hj => ?_⟩
    · simpa using process_args_not_shape tyOf f errs b rest i hb
    · refine absurd hj ?_
      simp
      omega
  | cons a pre' ih =>
    intro b rest f errs i hgood hlen hb
    have hshape : is_shape a = true ∧ good_args pre' = true := by
      simpa [good_args] using hgood
    obtain ⟨e, rfl⟩ := (is_shape_iff a).mp hshape.1
    have hi : i < f.arg_idents.length := by
      simp [List.length_cons] at hlen; omega
    set nm := into_name_str (recover (cpp_type_of tyOf e true)) with hnm
    set f' : CppFn := { f with arg_idents := set_ty_at f.arg_idents i nm } with hf'
    have hlen' : f'.arg_idents.length = f.arg_idents.length := by
      simp [hf', set_ty_at_length]
    have hstep : process_args tyOf f errs
        ((Expr.cast (Expr.cast (Expr.addrOf e)) :: pre') ++ b :: rest) i =
        process_args tyOf f' errs (pre' ++ b :: rest) (i + 1) := by
      rw [List.cons_append, process_args_cons_shape, if_pos hi, into_name_errs_recover]
    have hlen2 : (i + 1) + pre'.length ≤ f'.arg_idents.length := by
      rw [hlen']
      simp [List.length_cons] at hlen
      omega
    obtain ⟨f2, heq, hname, hret, hflen, hlow, hhigh⟩ := ih b rest f' errs (i + 1) hshape.2 hlen2 hb
    have hidx : (i + 1) + pre'.length = i + (Expr.cast (Expr.cast (Expr.addrOf e)) :: pre').length := by
      simp [List.length_cons]
      omega
    refine ⟨f2, ?_, by simp [hname, hf'], by simp [hret, hf'], by rw [hflen, hlen'], ?_, ?_⟩
    · rw [hstep, heq, hidx]
    · intro j hj
      rw [hlow j (by omega)]
      show (set_ty_at f.arg_idents i nm)[j]? = f.arg_idents[j]?
      exact set_ty_at_get_ne f.arg_idents i nm j (by omega)
    · intro j hij hj
      rcases Nat.eq_or_lt_of_le hij with hji | hji
      · refine ⟨nm, ?_⟩
        have h1 : f2.arg_idents[j]? = f'.arg_idents[j]? := hlow j (by omega)
        have h2 : f'.arg_idents[j]? = (f.arg_idents[i]?).map (fun a => { a with ty := some nm }) := by
          show (set_ty_at f.arg_idents i nm)[j]? = _
          rw [← hji]
          exact set_ty_at_get_eq f.arg_idents i nm hi
        rw [h1, h2]
        have hgi := List.getElem?_eq_getElem hi
        rw [hgi]
        simp
      · exact hhigh j hji (by simp [List.length_cons] at hj ⊢; omega)

lemma find_update (reg : List (String × CppFn)) (name : String) (f f2 : CppFn)
    (h : find_decl reg name = some f) :
    find_decl (update_decl reg name f2) name = some f2 := by
  induction reg with
  | nil => simp [find_decl] at h
  | cons p rest ih =>
    by_cases hp : p.1 = name
    · simp [update_decl, find_decl, hp]
    · simp [find_decl, hp] at h
      simp [update_decl, find_decl, hp]
      have := ih (by simpa [find_decl] using h)
      simpa [update_decl] using this

lemma all_ret_set_update (reg : List (String × CppFn)) (name : String) (f2 : CppFn)
    (hexc : all_ret_set_except reg name = true) (hf : f2.ret_ty.isSome = true) :
    all_ret_set (update_decl reg name f2) = true := by
  induction reg with
  | nil => rfl
  | cons p rest ih =>
    have hexc' : ((p.1 = name : Bool) || p.2.ret_ty.isSome) = true ∧
        all_ret_set_except rest name = true := by
      have h := hexc
      simp only [all_ret_set_except, List.all_cons, Bool.and_eq_true] at h
      exact ⟨h.1, h.2⟩
    simp only [update_decl, List.map_cons, all_ret_set, List.all_cons, Bool.and_eq_true]
    constructor
    · by_cases hpn : p.1 = name
      · simp [hpn, hf]
      · simp only [if_neg hpn]
        have h := hexc'.1
        rw [Bool.or_eq_true] at h
        rcases h with h | h
        · exact absurd (of_decide_eq_true h) hpn
        · exact h
    · have := ih hexc'.2
      simpa [update_decl, all_ret_set] using this

/-- Workhorse: on a call site with a registered name and fully
well-shaped arguments, `record_type_data` writes back the block with
the return type set and every argument translated, the error count
only reflecting the (non-recoverable) return-type translation, and the
outcome is determined by the completion predicate and the error
count. -/
lemma record_ok_spec (tyOf : Expr → HostTy) (reg : List (String × CppFn)) (errs : Nat)
    (name : String) (call : Expr) (args : List Expr) (f : CppFn)
    (hfd : find_decl reg name = some f) (hgood : good_args args = true)
    (hlen : args.length ≤ f.arg_idents.length) :
    ∃ f2,
      f2.name = f.name ∧
      f2.ret_ty = some (into_name_str (cpp_type_of tyOf call false)) ∧
      f2.arg_idents.length = f.arg_idents.length ∧
      (∀ (j : Nat) (e : Expr), args[j]? = some (Expr.cast (Expr.cast (Expr.addrOf e))) →
        (f2.arg_idents[j]?).map Arg.ty =
          some (some (into_name_str (recover (cpp_type_of tyOf e true))))) ∧
      record_type_data tyOf reg errs name call args =
        ((if all_ret_set (update_decl reg name f2) = true then
            (if into_name_errs (cpp_type_of tyOf call false) errs = 0 then Outcome.finalized
             else Outcome.aborted)
          else Outcome.ok),
         update_decl reg name f2, into_name_errs (cpp_type_of tyOf call false) errs) := by
  obtain ⟨f2, heq, hname, hret, hflen, hlow, hhigh⟩ :=
    process_args_good tyOf args
      { f with ret_ty := some (into_name_str (cpp_type_of tyOf call false)) }
      (into_name_errs (cpp_type_of tyOf call false) errs) 0 hgood (by simpa using hlen)
  refine ⟨f2, by simpa using hname, by simpa using hret, by simpa using hflen, ?_, ?_⟩
  · intro j e hj
    have hjlt : j < args.length := (List.getElem?_eq_some.mp hj).1
    obtain ⟨e', he', hty⟩ := hhigh j (Nat.zero_le j) (by omega)
    have he'' : args[j]? = some (Expr.cast (Expr.cast (Expr.addrOf e'))) := he'
    have hsome := he''.symm.trans hj
    have : e' = e := by
      injection hsome with h1
      injection h1 with h2
      injection h2 with h3
      injection h3
    subst this
    exact hty
  · simp only [record_type_data, hfd, heq]
    by_cases hall : all_ret_set (update_decl reg name f2) = true
    · by_cases herr0 : into_name_errs (cpp_type_of tyOf call false) errs = 0
      · simp [hall, herr0]
      · simp [hall, herr0]
    · simp [hall]

lemma scan_not_mem : ∀ (l : List String), "--out-dir" ∉ l → super_hack_scan l = none := by
  intro l
  induction l with
  | nil => intro _; rfl
  | cons a rest ih =>
    intro h
    have ha : a ≠ "--out-dir" := fun he => h (by rw [he]; exact List.mem_cons_self _ _)
    simp only [super_hack_scan, if_neg ha]
    exact ih (fun hm => h (List.mem_cons_of_mem a hm))

lemma scan_append : ∀ (pre post : List String), "--out-dir" ∉ pre →
    super_hack_scan (pre ++ "--out-dir" :: post) = super_hack_take post := by
  intro pre
  induction pre with
  | nil => intro post _; simp [super_hack_scan]
  | cons a rest ih =>
    intro post h
    have ha : a ≠ "--out-dir" := fun he => h (by rw [he]; exact List.mem_cons_self _ _)
    simp only [List.cons_append, super_hack_scan, if_neg ha]
    exact ih post (fun hm => h (List.mem_cons_of_mem a hm))

lemma take_all_token : ∀ (mid : List String), (∀ m ∈ mid, m = "--out-dir") →
    super_hack_take mid = none := by
  intro mid
  induction mid with
  | nil => intro _; rfl
  | cons a rest ih =>
    intro h
    have ha : a = "--out-dir" := h a (List.mem_cons_self _ _)
    simp only [super_hack_take, if_pos ha]
    exact ih (fun m hm => h m (List.mem_cons_of_mem a hm))

lemma take_found : ∀ (mid : List String) (v : String) (rest : List String),
    (∀ m ∈ mid, m = "--out-dir") → v ≠ "--out-dir" →
    super_hack_take (mid ++ v :: rest) = some v := by
  intro mid
  induction mid with
  | nil => intro v rest _ hv; simp [super_hack_take, hv]
  | cons a mid' ih =>
    intro v rest h hv
    have ha : a = "--out-dir" := h a (List.mem_cons_self _ _)
    simp only [List.cons_append, super_hack_take, if_pos ha]
    exact ih v rest (fun m hm => h m (List.mem_cons_of_mem a hm)) hv

lemma cpp_fn_decls_acc : ∀ (l : List CppFn) (acc : String),
    l.foldl (fun acc f => acc ++ "\n" ++ f.to_string ++ "\n") acc = acc ++ cpp_fn_decls l := by
  intro l
  induction l with
  | nil => intro acc; simp [cpp_fn_decls, String.append_empty]
  | cons f rest ih =>
    intro acc
    show rest.foldl _ (acc ++ "\n" ++ f.to_string ++ "\n") = acc ++ cpp_fn_decls (f :: rest)
    rw [ih (acc ++ "\n" ++ f.to_string ++ "\n")]
    have hr : cpp_fn_decls (f :: rest) = ("" ++ "\n" ++ f.to_string ++ "\n") ++ cpp_fn_decls rest := by
      show rest.foldl _ ("" ++ "\n" ++ f.to_string ++ "\n") = _
      rw [ih ("" ++ "\n" ++ f.to_string ++ "\n")]
    rw [hr]
    simp [String.append_assoc, String.empty_append]

lemma cpp_fn_decls_mem : ∀ (l : List CppFn) (f : CppFn), f ∈ l →
    ∃ p q, cpp_fn_decls l = p ++ ("\n" ++ f.to_string ++ "\n") ++ q := by
  intro l
  induction l with
  | nil => intro f h; simp at h
  | cons g rest ih =>
    intro f h
    have hg : cpp_fn_decls (g :: rest) = ("\n" ++ g.to_string ++ "\n") ++ cpp_fn_decls rest := by
      show rest.foldl _ ("" ++ "\n" ++ g.to_string ++ "\n") = _
      rw [cpp_fn_decls_acc rest ("" ++ "\n" ++ g.to_string ++ "\n")]
      simp [String.append_assoc, String.empty_append]
    rcases List.mem_cons.mp h with he | hm
    · subst he
      exact ⟨"", cpp_fn_decls rest, by rw [hg]; simp [String.empty_append, String.append_assoc]⟩
    · obtain ⟨p, q, hpq⟩ := ih f hm
      refine ⟨("\n" ++ g.to_string ++ "\n") ++ p, q, ?_⟩
      rw [hg, hpq]
      simp [String.append_assoc]

lemma stored_arg_ty_update (reg : List (String × CppFn)) (name : String) (f f2 : CppFn)
    (j : Nat) (hfd : find_decl reg name = some f) :
    stored_arg_ty (update_decl reg name f2) name j = (f2.arg_idents[j]?).map Arg.ty := by
  unfold stored_arg_ty
  rw [find_update reg name f f2 hfd]

lemma stored_ret_ty_update (reg : List (String × CppFn)) (name : String) (f f2 : CppFn)
    (hfd : find_decl reg name = some f) :
    stored_ret_ty (update_decl reg name f2) name = some f2.ret_ty := by
  unfold stored_ret_ty
  rw [find_update reg name f f2 hfd]
  rfl

/-! ### Claims -/

/-- Claim C1 (amended): `finalize` is never invoked before every
registered block has a non-empty return type, and it is invoked
synchronously by any visit of a call site matching a registered block
that leaves every block resolved with no fatal diagnostics pending —
including a visit made after a first finalization, because
`record_type_data` keeps no `finalized` state: the completion
predicate is recomputed from the registry, so a later matching visit
runs `finalize` again. -/
theorem c1_finalize_gate (tyOf : Expr → HostTy) (reg : List (String × CppFn)) (errs : Nat)
    (name : String) (call : Expr) (args : List Expr) (f : CppFn) (r : String) :
    ((record_type_data tyOf reg errs name call args).1 = Outcome.finalized →
      all_ret_set (record_type_data tyOf reg errs name call args).2.1 = true) ∧
    (find_decl reg name = some f → good_args args = true →
      args.length ≤ f.arg_idents.length → tyOf call = HostTy.mapped r → errs = 0 →
      all_ret_set_except reg name = true →
      (record_type_data tyOf reg errs name call args).1 = Outcome.finalized) := by
  constructor
  · intro hfin
    cases hfd : find_decl reg name with
    | none => simp [record_type_data, hfd] at hfin
    | some f0 =>
      cases hp : process_args tyOf
          { f0 with ret_ty := some (into_name_str (cpp_type_of tyOf call false)) }
          (into_name_errs (cpp_type_of tyOf call false) errs) args 0 with
      | ok f2 errs2 =>
        simp only [record_type_data, hfd, hp] at hfin ⊢
        by_cases hall : all_ret_set (update_decl reg name f2) = true
        · by_cases herr0 : errs2 = 0
          · simp only [if_pos hall, if_pos herr0]
            exact hall
          · simp only [if_pos hall, if_neg herr0] at hfin
            simp at hfin
        · simp only [if_neg hall] at hfin
          simp at hfin
      | shape_mismatch f2 errs2 i => simp [record_type_data, hfd, hp] at hfin
      | index_oob f2 errs2 i => simp [record_type_data, hfd, hp] at hfin
  · intro hfd hgood hlen hty herrs hexc
    obtain ⟨f2, hname, hret, hflen, hstored, hrec⟩ :=
      record_ok_spec tyOf reg errs name call args f hfd hgood hlen
    have herr0 : into_name_errs (cpp_type_of tyOf call false) errs = 0 := by
      simp [cpp_type_of, hty, into_name_errs, herrs]
    have hall : all_ret_set (update_decl reg name f2) = true :=
      all_ret_set_update reg name f2 hexc (by rw [hret]; rfl)
    rw [hrec]
    simp [hall, herr0]

/-- Claim C1 witness: one registered zero-argument block, first visit of
its call site resolves the last missing return type and finalizes. -/
theorem c1_finalize_gate_witness :
    (record_type_data (fun _ => HostTy.mapped "int32_t")
      [("f", { name := "f", ret_ty := none, arg_idents := [] })] 0 "f" (Expr.lit 0) []).1 =
      Outcome.finalized :=
  (c1_finalize_gate (fun _ => HostTy.mapped "int32_t")
      [("f", { name := "f", ret_ty := none, arg_idents := [] })] 0 "f" (Expr.lit 0) []
      { name := "f", ret_ty := none, arg_idents := [] } "int32_t").2
    (by decide) rfl (by decide) rfl rfl (by decide)

/-- Claim C1 counterexample: a registry with one zero-argument block
whose call site is visited twice.  The first visit resolves the last
missing return type and finalizes; because there is no
`finalized`-state guard, the second visit (the predicate is still
true) finalizes again — `run_visits` counts 2 finalizations, refuting
the claim that `finalize` is never invoked a second time even if
further call sites matching registered blocks are visited. -/
theorem c1_counterexample :
    (run_visits (fun _ => HostTy.mapped "int32_t")
      [("f", Expr.lit 0, []), ("f", Expr.lit 0, [])]
      [("f", { name := "f", ret_ty := none, arg_idents := [] })] 0 0).2.2 = 2 := by
  decide

/-- Claim C2 (confirmed): when the completion predicate holds after a
recording step but fatal diagnostics have accumulated, the pass
aborts (`abort_if_errors`, src/lint.rs:107) before `finalize`, and
the trace of the call contains no file write. -/
theorem c2_abort_before_finalize (tyOf : Expr → HostTy) (reg : List (String × CppFn))
    (errs : Nat) (name : String) (call : Expr) (args : List Expr) (f : CppFn)
    (out_dir : String)
    (hfd : find_decl reg name = some f) (hgood : good_args args = true)
    (hlen : args.length ≤ f.arg_idents.length)
    (hall : all_ret_set (record_type_data tyOf reg errs name call args).2.1 = true)
    (herr : 0 < (record_type_data tyOf reg errs name call args).2.2) :
    (record_type_data tyOf reg errs name call args).1 = Outcome.aborted ∧
    has_write_file (record_trace tyOf reg errs name call args out_dir) = false := by
  obtain ⟨f2, hname, hret, hflen, hstored, hrec⟩ :=
    record_ok_spec tyOf reg errs name call args f hfd hgood hlen
  have hall' : all_ret_set (update_decl reg name f2) = true := by
    rw [hrec] at hall; exact hall
  have herrv : 0 < into_name_errs (cpp_type_of tyOf call false) errs := by
    rw [hrec] at herr; exact herr
  have herr' : ¬ into_name_errs (cpp_type_of tyOf call false) errs = 0 := by omega
  have ho : (record_type_data tyOf reg errs name call args).1 = Outcome.aborted := by
    rw [hrec]
    show (if all_ret_set (update_decl reg name f2) = true then
        (if into_name_errs (cpp_type_of tyOf call false) errs = 0 then Outcome.finalized
         else Outcome.aborted)
      else Outcome.ok) = Outcome.aborted
    rw [if_pos hall', if_neg herr']
  refine ⟨ho, ?_⟩
  unfold record_trace
  rw [ho]
  rfl

/-- Claim C2 witness: one zero-argument block whose visit completes the
predicate while one fatal diagnostic is pending — abort, no write. -/
theorem c2_abort_before_finalize_witness :
    (record_type_data (fun _ => HostTy.mapped "int32_t")
      [("f", { name := "f", ret_ty := none, arg_idents := [] })] 1 "f" (Expr.lit 0) []).1 =
      Outcome.aborted ∧
    has_write_file (record_trace (fun _ => HostTy.mapped "int32_t")
      [("f", { name := "f", ret_ty := none, arg_idents := [] })] 1 "f" (Expr.lit 0) []
      "/out") = false :=
  c2_abort_before_finalize (fun _ => HostTy.mapped "int32_t")
    [("f", { name := "f", ret_ty := none, arg_idents := [] })] 1 "f" (Expr.lit 0) []
    { name := "f", ret_ty := none, arg_idents := [] } "/out"
    (by decide) rfl (by decide) (by decide) (by decide)

/-- Claim C5 (amended): when the visited call's name matches no
registered block, `record_type_data` silently skips the call
(src/lint.rs:100-102): no diagnostic, no state change. -/
theorem c5_silent_skip (tyOf : Expr → HostTy) (reg : List (String × CppFn)) (errs : Nat)
    (name : String) (call : Expr) (args : List Expr)
    (h : find_decl reg name = none) :
    record_type_data tyOf reg errs name call args = (Outcome.skipped, reg, errs) := by
  simp [record_type_data, h]

/-- Claim C5 witness: a call whose name is not in the registry is
skipped, leaving registry and diagnostics untouched. -/
theorem c5_silent_skip_witness :
    record_type_data (fun _ => HostTy.mapped "int32_t") [] 0 "g" (Expr.lit 0) [] =
      (Outcome.skipped, [], 0) :=
  c5_silent_skip (fun _ => HostTy.mapped "int32_t") [] 0 "g" (Expr.lit 0) [] rfl

/-- Claim C5 counterexample: the claim says a failed lookup "fails with
a hard error"; in the code (src/lint.rs:100-102) the `else` branch is
a bare `return`.  At this concrete input the lookup fails, yet the
outcome is `skipped`, the registry is unchanged, and the
fatal-diagnostic count stays at 3 — no hard error of any kind. -/
theorem c5_counterexample :
    record_type_data (fun _ => HostTy.mapped "int32_t")
      [("f", { name := "f", ret_ty := none, arg_idents := [] })] 3 "g" (Expr.lit 0) [] =
      (Outcome.skipped, [("f", { name := "f", ret_ty := none, arg_idents := [] })], 3) := by
  rfl

/-- Claim C7 (amended): the out-dir recovery scans the invocation
arguments for `--out-dir` and takes the first following argument that
is not itself the token (later occurrences of the token re-arm the
flag and are skipped); if no value is found it falls back exactly once
to the current working directory, and only when that also fails does
the build abort. -/
theorem c7_out_dir_resolution (argv : List String) (cwd : Option String) :
    ("--out-dir" ∉ argv → super_hack_get_out_dir argv cwd = cwd) ∧
    (∀ (pre mid : List String) (v : String) (rest : List String),
      argv = pre ++ "--out-dir" :: (mid ++ v :: rest) → "--out-dir" ∉ pre →
      (∀ m ∈ mid, m = "--out-dir") → v ≠ "--out-dir" →
      super_hack_get_out_dir argv cwd = some v) ∧
    (∀ (pre mid : List String), argv = pre ++ "--out-dir" :: mid → "--out-dir" ∉ pre →
      (∀ m ∈ mid, m = "--out-dir") → super_hack_get_out_dir argv cwd = cwd) ∧
    (super_hack_get_out_dir argv cwd = none ↔ super_hack_scan argv = none ∧ cwd = none) := by
  refine ⟨?_, ?_, ?_, ?_⟩
  · intro h
    unfold super_hack_get_out_dir
    rw [scan_not_mem argv h]
  · intro pre mid v rest he hpre hmid hv
    subst he
    unfold super_hack_get_out_dir
    rw [scan_append pre _ hpre, take_found mid v rest hmid hv]
  · intro pre mid he hpre hmid
    subst he
    unfold super_hack_get_out_dir
    rw [scan_append pre mid hpre, take_all_token mid hmid]
  · unfold super_hack_get_out_dir
    cases hs : super_hack_scan argv with
    | some d => simp [hs]
    | none => simp [hs]

/-- Claim C7 witness: the value is found even when the token repeats,
and the cwd fallback is used when the token is absent. -/
theorem c7_out_dir_resolution_witness :
    super_hack_get_out_dir ["rustc", "--out-dir", "--out-dir", "dir"] none = some "dir" ∧
    super_hack_get_out_dir ["rustc"] (some "/cwd") = some "/cwd" :=
  ⟨(c7_out_dir_resolution ["rustc", "--out-dir", "--out-dir", "dir"] none).2.1
      ["rustc"] ["--out-dir"] "dir" [] rfl (by decide) (by decide) (by decide),
   (c7_out_dir_resolution ["rustc"] (some "/cwd")).1 (by decide)⟩

/-- Claim C7 counterexample: on `["--out-dir", "--out-dir", "x"]` the
argument immediately following the (first) token is `"--out-dir"`
itself, but the loop's first branch re-arms the flag and skips it
(src/lint.rs:25-28), so the code takes `"x"` — not the immediately
following argument the claim describes. -/
theorem c7_counterexample :
    super_hack_get_out_dir ["--out-dir", "--out-dir", "x"] (some "/cwd") = some "x" ∧
    spec_out_dir_resolve ["--out-dir", "--out-dir", "x"] (some "/cwd") = some "--out-dir" ∧
    super_hack_get_out_dir ["--out-dir", "--out-dir", "x"] (some "/cwd") ≠
      spec_out_dir_resolve ["--out-dir", "--out-dir", "x"] (some "/cwd") := by
  refine ⟨rfl, rfl, ?_⟩
  decide

/-- Claim C3 (confirmed): on a registered call site with well-shaped
arguments, the error count after recording reflects only the
return-position translation (the argument translations are marked
recoverable by `recover()`, src/lint.rs:90, and never add a fatal
diagnostic); every argument descriptor stores the recoverable
by-reference translation of its unwrapped expression (an unmappable
one degrades to the opaque placeholder); an unmappable return type
adds a fatal diagnostic, and once the completion predicate holds the
pass aborts instead of finalizing. -/
theorem c3_argument_return_asymmetry (tyOf : Expr → HostTy) (reg : List (String × CppFn))
    (errs : Nat) (name : String) (call : Expr) (args : List Expr) (f : CppFn)
    (hfd : find_decl reg name = some f) (hgood : good_args args = true)
    (hlen : args.length ≤ f.arg_idents.length) :
    ((record_type_data tyOf reg errs name call args).2.2 =
      into_name_errs (cpp_type_of tyOf call false) errs) ∧
    (∀ (j : Nat) (e : Expr), args[j]? = some (Expr.cast (Expr.cast (Expr.addrOf e))) →
      stored_arg_ty (record_type_data tyOf reg errs name call args).2.1 name j =
        some (some (into_name_str (recover (cpp_type_of tyOf e true))))) ∧
    (tyOf call = HostTy.unmappable →
      (record_type_data tyOf reg errs name call args).2.2 = errs + 1) ∧
    (∀ r, tyOf call = HostTy.mapped r →
      (record_type_data tyOf reg errs name call args).2.2 = errs) ∧
    (tyOf call = HostTy.unmappable →
      all_ret_set (record_type_data tyOf reg errs name call args).2.1 = true →
      (record_type_data tyOf reg errs name call args).1 = Outcome.aborted) := by
  obtain ⟨f2, hname, hret, hflen, hstored, hrec⟩ :=
    record_ok_spec tyOf reg errs name call args f hfd hgood hlen
  have h22 : (record_type_data tyOf reg errs name call args).2.2 =
      into_name_errs (cpp_type_of tyOf call false) errs := by rw [hrec]
  refine ⟨h22, ?_, ?_, ?_, ?_⟩
  · intro j e hj
    have hv := hstored j e hj
    rw [hrec]
    show stored_arg_ty (update_decl reg name f2) name j = _
    rw [stored_arg_ty_update reg name f f2 j hfd]
    exact hv
  · intro hun
    rw [h22]
    simp [cpp_type_of, hun, into_name_errs]
  · intro r hm
    rw [h22]
    simp [cpp_type_of, hm, into_name_errs]
  · intro hun hall
    have hall' : all_ret_set (update_decl reg name f2) = true := by
      rw [hrec] at hall; exact hall
    have herr' : ¬ into_name_errs (cpp_type_of tyOf call false) errs = 0 := by
      simp [cpp_type_of, hun, into_name_errs]
    rw [hrec]
    show (if all_ret_set (update_decl reg name f2) = true then
        (if into_name_errs (cpp_type_of tyOf call false) errs = 0 then Outcome.finalized
         else Outcome.aborted)
      else Outcome.ok) = Outcome.aborted
    rw [if_pos hall', if_neg herr']

/-- Claim C3 witness: a one-argument block whose captured value and
return value both have an unmappable type — the argument degrades to
the opaque placeholder, the return records the single fatal
diagnostic, and the completed pass aborts. -/
theorem c3_argument_return_asymmetry_witness :
    stored_arg_ty (record_type_data (fun _ => HostTy.unmappable)
        [("f", { name := "f", ret_ty := none, arg_idents := [{ ident := "x", ty := none }] })]
        0 "f" (Expr.lit 0) [Expr.cast (Expr.cast (Expr.addrOf (Expr.lit 7)))]).2.1 "f" 0 =
      some (some "rs::__Dummy") ∧
    (record_type_data (fun _ => HostTy.unmappable)
        [("f", { name := "f", ret_ty := none, arg_idents := [{ ident := "x", ty := none }] })]
        0 "f" (Expr.lit 0) [Expr.cast (Expr.cast (Expr.addrOf (Expr.lit 7)))]).2.2 = 0 + 1 ∧
    (record_type_data (fun _ => HostTy.unmappable)
        [("f", { name := "f", ret_ty := none, arg_idents := [{ ident := "x", ty := none }] })]
        0 "f" (Expr.lit 0) [Expr.cast (Expr.cast (Expr.addrOf (Expr.lit 7)))]).1 =
      Outcome.aborted :=
  ⟨(c3_argument_return_asymmetry (fun _ => HostTy.unmappable)
      [("f", { name := "f", ret_ty := none, arg_idents := [{ ident := "x", ty := none }] })]
      0 "f" (Expr.lit 0) [Expr.cast (Expr.cast (Expr.addrOf (Expr.lit 7)))]
      { name := "f", ret_ty := none, arg_idents := [{ ident := "x", ty := none }] }
      (by decide) rfl (by decide)).2.1 0 (Expr.lit 7) rfl,
   (c3_argument_return_asymmetry (fun _ => HostTy.unmappable)
      [("f", { name := "f", ret_ty := none, arg_idents := [{ ident := "x", ty := none }] })]
      0 "f" (Expr.lit 0) [Expr.cast (Expr.cast (Expr.addrOf (Expr.lit 7)))]
      { name := "f", ret_ty := none, arg_idents := [{ ident := "x", ty := none }] }
      (by decide) rfl (by decide)).2.2.1 rfl,
   (c3_argument_return_asymmetry (fun _ => HostTy.unmappable)
      [("f", { name := "f", ret_ty := none, arg_idents := [{ ident := "x", ty := none }] })]
      0 "f" (Expr.lit 0) [Expr.cast (Expr.cast (Expr.addrOf (Expr.lit 7)))]
      { name := "f", ret_ty := none, arg_idents := [{ ident := "x", ty := none }] }
      (by decide) rfl (by decide)).2.2.2.2 rfl (by decide)⟩

/-- Claim C6 (confirmed): on a registered call site, the first argument
that is not an address-of wrapped in two explicit casts makes the
argument loop `panic!` (src/lint.rs:98) — outcome `panicked` at that
argument's index, not a normal diagnostic or the `abort_if_errors`
abort — while arguments of exactly that shape are unwrapped and their
inner expression's recoverable by-reference translation is stored. -/
theorem c6_shape_handling (tyOf : Expr → HostTy) (reg : List (String × CppFn)) (errs : Nat)
    (name : String) (call : Expr) (f : CppFn)
    (hfd : find_decl reg name = some f) :
    (∀ (pre : List Expr) (b : Expr) (rest : List Expr),
      good_args pre = true → is_shape b = false → pre.length ≤ f.arg_idents.length →
      (record_type_data tyOf reg errs name call (pre ++ b :: rest)).1 =
        Outcome.panicked pre.length) ∧
    (∀ (args : List Expr), good_args args = true → args.length ≤ f.arg_idents.length →
      ∀ (j : Nat) (e : Expr), args[j]? = some (Expr.cast (Expr.cast (Expr.addrOf e))) →
        stored_arg_ty (record_type_data tyOf reg errs name call args).2.1 name j =
          some (some (into_name_str (recover (cpp_type_of tyOf e true))))) := by
  constructor
  · intro pre b rest hpre hb hlen
    obtain ⟨f2, heq, hname, hret, hflen, hlow, hhigh⟩ :=
      process_args_first_bad tyOf pre b rest
        { f with ret_ty := some (into_name_str (cpp_type_of tyOf call false)) }
        (into_name_errs (cpp_type_of tyOf call false) errs) 0 hpre (by simpa using hlen) hb
    simp only [record_type_data, hfd, heq]
    simp
  · intro args hgood hlen j e hj
    obtain ⟨f2, hname, hret, hflen, hstored, hrec⟩ :=
      record_ok_spec tyOf reg errs name call args f hfd hgood hlen
    have hv := hstored j e hj
    rw [hrec]
    show stored_arg_ty (update_decl reg name f2) name j = _
    rw [stored_arg_ty_update reg name f f2 j hfd]
    exact hv

/-- Claim C6 witness: a two-argument block whose second argument is a
bare literal (not the double-cast shape) panics at index 1, while a
fully well-shaped call stores the unwrapped argument's translation. -/
theorem c6_shape_handling_witness :
    (record_type_data (fun _ => HostTy.mapped "int32_t")
        [("f", { name := "f", ret_ty := none,
                 arg_idents := [{ ident := "x", ty := none }, { ident := "y", ty := none }] })]
        0 "f" (Expr.lit 0)
        [Expr.cast (Expr.cast (Expr.addrOf (Expr.lit 7))), Expr.lit 3]).1 =
      Outcome.panicked 1 ∧
    stored_arg_ty (record_type_data (fun _ => HostTy.mapped "int32_t")
        [("g", { name := "g", ret_ty := none, arg_idents := [{ ident := "x", ty := none }] })]
        0 "g" (Expr.lit 0) [Expr.cast (Expr.cast (Expr.addrOf (Expr.lit 7)))]).2.1 "g" 0 =
      some (some "const int32_t*") :=
  ⟨(c6_shape_handling (fun _ => HostTy.mapped "int32_t")
      [("f", { name := "f", ret_ty := none,
               arg_idents := [{ ident := "x", ty := none }, { ident := "y", ty := none }] })]
      0 "f" (Expr.lit 0)
      { name := "f", ret_ty := none,
        arg_idents := [{ ident := "x", ty := none }, { ident := "y", ty := none }] }
      (by decide)).1
    [Expr.cast (Expr.cast (Expr.addrOf (Expr.lit 7)))] (Expr.lit 3) [] rfl rfl (by decide),
   (c6_shape_handling (fun _ => HostTy.mapped "int32_t")
      [("g", { name := "g", ret_ty := none, arg_idents := [{ ident := "x", ty := none }] })]
      0 "g" (Expr.lit 0)
      { name := "g", ret_ty := none, arg_idents := [{ ident := "x", ty := none }] }
      (by decide)).2
    [Expr.cast (Expr.cast (Expr.addrOf (Expr.lit 7)))] rfl (by decide) 0 (Expr.lit 7) rfl⟩

/-- Claim C10 (confirmed): when argument `i` (the first malformed one)
of a registered call site is malformed, the panic fires only after
the block's return type and the types of all arguments below `i` have
been written into the shared registry — the failing call does not
leave the shared state unchanged. -/
theorem c10_panic_after_partial_writes (tyOf : Expr → HostTy) (reg : List (String × CppFn))
    (errs : Nat) (name : String) (call : Expr) (f : CppFn)
    (pre : List Expr) (b : Expr) (rest : List Expr)
    (hfd : find_decl reg name = some f) (hpre : good_args pre = true)
    (hlen : pre.length ≤ f.arg_idents.length) (hb : is_shape b = false) :
    (record_type_data tyOf reg errs name call (pre ++ b :: rest)).1 =
      Outcome.panicked pre.length ∧
    stored_ret_ty (record_type_data tyOf reg errs name call (pre ++ b :: rest)).2.1 name =
      some (some (into_name_str (cpp_type_of tyOf call false))) ∧
    (∀ (j : Nat), j < pre.length →
      ∃ s, stored_arg_ty (record_type_data tyOf reg errs name call (pre ++ b :: rest)).2.1
        name j = some (some s)) := by
  obtain ⟨f2, heq, hname, hret, hflen, hlow, hhigh⟩ :=
    process_args_first_bad tyOf pre b rest
      { f with ret_ty := some (into_name_str (cpp_type_of tyOf call false)) }
      (into_name_errs (cpp_type_of tyOf call false) errs) 0 hpre (by simpa using hlen) hb
  have hrec : record_type_data tyOf reg errs name call (pre ++ b :: rest) =
      (Outcome.panicked (0 + pre.length), update_decl reg name f2,
       into_name_errs (cpp_type_of tyOf call false) errs) := by
    simp only [record_type_data, hfd, heq]
  refine ⟨?_, ?_, ?_⟩
  · rw [hrec]
    simp
  · rw [hrec]
    show stored_ret_ty (update_decl reg name f2) name = _
    rw [stored_ret_ty_update reg name f f2 hfd, hret]
  · intro j hj
    obtain ⟨s, hs⟩ := hhigh j (Nat.zero_le j) (by omega)
    refine ⟨s, ?_⟩
    rw [hrec]
    show stored_arg_ty (update_decl reg name f2) name j = _
    rw [stored_arg_ty_update reg name f f2 j hfd]
    exact hs

/-- Claim C10 witness: a two-argument block with a malformed second
argument — the call panics at index 1 with the return type already
written into the shared registry. -/
theorem c10_panic_after_partial_writes_witness :
    (record_type_data (fun _ => HostTy.mapped "int32_t")
        [("f", { name := "f", ret_ty := none,
                 arg_idents := [{ ident := "x", ty := none }, { ident := "y", ty := none }] })]
        0 "f" (Expr.lit 0)
        [Expr.cast (Expr.cast (Expr.addrOf (Expr.lit 7))), Expr.lit 3]).1 =
      Outcome.panicked 1 ∧
    stored_ret_ty (record_type_data (fun _ => HostTy.mapped "int32_t")
        [("f", { name := "f", ret_ty := none,
                 arg_idents := [{ ident := "x", ty := none }, { ident := "y", ty := none }] })]
        0 "f" (Expr.lit 0)
        [Expr.cast (Expr.cast (Expr.addrOf (Expr.lit 7))), Expr.lit 3]).2.1 "f" =
      some (some "int32_t") :=
  have h := c10_panic_after_partial_writes (fun _ => HostTy.mapped "int32_t")
    [("f", { name := "f", ret_ty := none,
             arg_idents := [{ ident := "x", ty := none }, { ident := "y", ty := none }] })]
    0 "f" (Expr.lit 0)
    { name := "f", ret_ty := none,
      arg_idents := [{ ident := "x", ty := none }, { ident := "y", ty := none }] }
    [Expr.cast (Expr.cast (Expr.addrOf (Expr.lit 7)))] (Expr.lit 3) []
    (by decide) rfl (by decide) rfl
  ⟨h.1, h.2.1⟩

/-- Claim C4 (amended): the generated document's bytes are a pure
function of the target, the header text, the rendered type registry,
and the *iteration order* of the block registry; since the registry
is a `HashMap` whose `values()` order is not a function of its
contents and may differ between process runs, byte-identity across
runs is guaranteed only when the iteration orders coincide — in
particular whenever at most one block is registered. -/
theorem c4_order_determinism (t : Target) (headers types_cpp : String) (l1 l2 : List CppFn)
    (hperm : l1.Perm l2) (hlen : l1.length ≤ 1) :
    finalize_doc_of t headers types_cpp l1 = finalize_doc_of t headers types_cpp l2 := by
  have hl : l1 = l2 := by
    cases l1 with
    | nil => exact (List.Perm.eq_nil hperm.symm).symm
    | cons a r =>
      cases r with
      | nil => exact (List.perm_singleton.mp hperm.symm).symm
      | cons b r2 => simp at hlen
  rw [hl]

/-- Claim C4 witness: a single-block registry renders identically under
any iteration order. -/
theorem c4_order_determinism_witness :
    finalize_doc_of target32 "" ""
        [{ name := "a", ret_ty := some "int32_t", arg_idents := [] }] =
      finalize_doc_of target32 "" ""
        [{ name := "a", ret_ty := some "int32_t", arg_idents := [] }] :=
  c4_order_determinism target32 "" ""
    [{ name := "a", ret_ty := some "int32_t", arg_idents := [] }]
    [{ name := "a", ret_ty := some "int32_t", arg_idents := [] }]
    (List.Perm.refl _) (by decide)

/-- Claim C4 counterexample: two registries that are equal as maps (one
is a permutation of the other) but iterated in the two possible
orders — the `decls.values()` fold (src/lint.rs:116-118) then renders
the function declarations in different orders, so the document bytes
differ even though the input compilation unit is fixed.  Since
`HashMap::values()` order varies across runs of the process, the
claimed byte-identity across repeated runs fails. -/
theorem c4_counterexample :
    ([{ name := "a", ret_ty := some "int32_t", arg_idents := [] },
      { name := "b", ret_ty := some "uint64_t", arg_idents := [] }] : List CppFn).Perm
      [{ name := "b", ret_ty := some "uint64_t", arg_idents := [] },
       { name := "a", ret_ty := some "int32_t", arg_idents := [] }] ∧
    finalize_doc_of target64 "" ""
        [{ name := "a", ret_ty := some "int32_t", arg_idents := [] },
         { name := "b", ret_ty := some "uint64_t", arg_idents := [] }] ≠
      finalize_doc_of target64 "" ""
        [{ name := "b", ret_ty := some "uint64_t", arg_idents := [] },
         { name := "a", ret_ty := some "int32_t", arg_idents := [] }] := by
  constructor
  · decide
  · intro h
    unfold finalize_doc_of finalize_doc at h
    have h2 := str_append_cancel h
    exact absurd h2 (by decide)

/-- Claim C9 (amended): `record_type_data` performs no I/O at all on a
non-finalizing call; on the finalizing call, the document write
happens while the header-buffer, block-registry and type-registry
locks are all held (the guards taken at src/lint.rs:70-72 are still
live when `finalize` is called at src/lint.rs:108), and the external
compile invocation additionally runs while the flag-set lock is held
(src/lint.rs:238-248) — contrary to the claim, the I/O does not
happen outside the locks. -/
theorem c9_lock_discipline (tyOf : Expr → HostTy) (reg : List (String × CppFn)) (errs : Nat)
    (name : String) (call : Expr) (args : List Expr) (out_dir : String) :
    ((record_type_data tyOf reg errs name call args).1 = Outcome.finalized →
      io_held_pairs (record_trace tyOf reg errs name call args out_dir) [] =
        [(Event.write_file (out_dir ++ "/rust_cpp_tmp.cpp"),
          ["CPP_HEADERS", "CPP_FNDECLS", "CPP_TYPEDATA"]),
         (Event.run_compiler,
          ["CPP_HEADERS", "CPP_FNDECLS", "CPP_TYPEDATA", "CPP_FLAGS"])]) ∧
    ((record_type_data tyOf reg errs name call args).1 ≠ Outcome.finalized →
      io_held_pairs (record_trace tyOf reg errs name call args out_dir) [] = []) := by
  constructor
  · intro h
    unfold record_trace
    rw [h]
    rfl
  · intro h
    unfold record_trace
    cases ho : (record_type_data tyOf reg errs name call args).1 with
    | finalized => exact absurd ho h
    | skipped => rfl
    | ok => rfl
    | panicked i => rfl
    | index_panicked i => rfl
    | aborted => rfl

/-- Claim C9 witness: on a finalizing visit, the document write occurs
with the three table locks held and the compile invocation with all
four. -/
theorem c9_lock_discipline_witness :
    io_held_pairs (record_trace (fun _ => HostTy.mapped "int32_t")
        [("f", { name := "f", ret_ty := none, arg_idents := [] })] 0 "f" (Expr.lit 0) []
        "/out") [] =
      [(Event.write_file "/out/rust_cpp_tmp.cpp",
        ["CPP_HEADERS", "CPP_FNDECLS", "CPP_TYPEDATA"]),
       (Event.run_compiler,
        ["CPP_HEADERS", "CPP_FNDECLS", "CPP_TYPEDATA", "CPP_FLAGS"])] :=
  (c9_lock_discipline (fun _ => HostTy.mapped "int32_t")
      [("f", { name := "f", ret_ty := none, arg_idents := [] })] 0 "f" (Expr.lit 0) []
      "/out").1 (by decide)

/-- Claim C9 counterexample: a concrete finalizing visit whose trace
performs I/O (the document write and the compiler invocation) while
locks are held, refuting the claim that no file I/O or
external-process invocation is performed while any of the
shared-state locks is held. -/
theorem c9_counterexample :
    io_while_locked (record_trace (fun _ => HostTy.mapped "int32_t")
      [("f", { name := "f", ret_ty := none, arg_idents := [] })] 0 "f" (Expr.lit 0) []
      "/out") = true := by
  rfl

/-- Claim C8 (confirmed): the document is the fixed preamble (with the
target-supplied pointer-width `usize`/`isize` typedefs, the IEEE-754
float static assertions present verbatim for every target), then the
verbatim accumulated header text, then the registry type section,
then the function declarations — one per block — inside the
`extern \"C\"` block; documents for 32-bit and 64-bit pointer-width
targets differ; and `finalize` writes it to the fixed filename
`rust_cpp_tmp.cpp` inside the resolved output directory. -/
theorem c8_document_structure (headers types_cpp : String) (l : List CppFn) (t : Target)
    (out_dir : String) :
    (∃ p q, finalize_doc_of t headers types_cpp l = p ++ float_assert_32 ++ q) ∧
    (∃ p q, finalize_doc_of t headers types_cpp l = p ++ float_assert_64 ++ q) ∧
    (∃ q1 q2 q3 q4, finalize_doc_of t headers types_cpp l =
      (doc_part1 ++ t.uint_type ++ doc_part2 ++ t.int_type ++ q1) ++ headers ++ q2 ++
        types_cpp ++ q3 ++ cpp_fn_decls l ++ q4) ∧
    (finalize_doc_of target32 headers types_cpp l ≠
      finalize_doc_of target64 headers types_cpp l) ∧
    (∀ f ∈ l, ∃ p q,
      finalize_doc_of t headers types_cpp l = p ++ ("\n" ++ f.to_string ++ "\n") ++ q) ∧
    (Event.write_file (out_dir ++ "/rust_cpp_tmp.cpp") ∈ finalize_events out_dir) := by
  refine ⟨?_, ?_, ?_, ?_, ?_, ?_⟩
  · refine ⟨doc_part1 ++ t.uint_type ++ doc_part2 ++ t.int_type ++ doc_part3a,
      doc_part3b ++ float_assert_64 ++ doc_part3c ++ headers ++ doc_part4 ++ types_cpp ++
        doc_part5 ++ cpp_fn_decls l ++ doc_part6, ?_⟩
    simp [finalize_doc_of, finalize_doc, String.append_assoc]
  · refine ⟨doc_part1 ++ t.uint_type ++ doc_part2 ++ t.int_type ++ doc_part3a ++
        float_assert_32 ++ doc_part3b,
      doc_part3c ++ headers ++ doc_part4 ++ types_cpp ++ doc_part5 ++ cpp_fn_decls l ++
        doc_part6, ?_⟩
    simp [finalize_doc_of, finalize_doc, String.append_assoc]
  · refine ⟨doc_part3a ++ float_assert_32 ++ doc_part3b ++ float_assert_64 ++ doc_part3c,
      doc_part4, doc_part5, doc_part6, ?_⟩
    simp [finalize_doc_of, finalize_doc, String.append_assoc]
  · intro h
    have h' : finalize_doc "u32" "i32" headers types_cpp (cpp_fn_decls l) =
        finalize_doc "u64" "i64" headers types_cpp (cpp_fn_decls l) := h
    unfold finalize_doc at h'
    simp only [String.append_assoc] at h'
    have h2 := congrArg String.data h'
    simp only [String.data_append] at h2
    have h3 := List.append_cancel_left h2
    simp only [List.cons_append, List.nil_append] at h3
    injection h3 with _ h4
    injection h4 with h5 _
    exact absurd h5 (by decide)
  · intro f hf
    obtain ⟨p, q, hpq⟩ := cpp_fn_decls_mem l f hf
    refine ⟨doc_part1 ++ t.uint_type ++ doc_part2 ++ t.int_type ++ doc_part3a ++
        float_assert_32 ++ doc_part3b ++ float_assert_64 ++ doc_part3c ++ headers ++
        doc_part4 ++ types_cpp ++ doc_part5 ++ p, q ++ doc_part6, ?_⟩
    simp [finalize_doc_of, finalize_doc, hpq, String.append_assoc]
  · simp [finalize_events]

/-- Claim C8 witness: the 32-bit and 64-bit documents for a concrete
unit differ (the pointer-width typedefs are target-derived). -/
theorem c8_document_structure_witness :
    finalize_doc_of target32 "" ""
        [{ name := "a", ret_ty := some "int32_t", arg_idents := [] }] ≠
      finalize_doc_of target64 "" ""
        [{ name := "a", ret_ty := some "int32_t", arg_idents := [] }] :=
  (c8_document_structure "" ""
    [{ name := "a", ret_ty := some "int32_t", arg_idents := [] }] target32 "/out").2.2.2.1

end RustCpp
